import Mathlib

/-!
Shallow embedding of the RLP type-metadata cache (`rlp/typecache.go`):
the struct-tag modifier parser (`parseStructTag`), the field enumerator
(`structFields`), and the caching resolver (`cachedTypeInfo` /
`cachedTypeInfo1`) with its placeholder-based recursion guard.

Go's reflective types are modelled by the inductive `RType`; struct bodies
are looked up in an environment mapping struct names to field lists, so
self-referential type graphs are representable.  The process-wide map
`typeCache` together with the heap of `typeinfo` records it points into is
modelled by an explicit `State` threaded through the functions; pointers
are indices into the heap list, so pointer identity of cache entries is
observable.  A `fuel` parameter makes the recursion structural; the Go
code needs no fuel because the placeholder guard bounds the recursion, and
every theorem below is fuel-generic or instantiates fuel concretely.
-/

namespace Rlp

/-- Tags mirrors the `tags` struct: the three boolean facets parsed from a
field's `rlp:"..."` struct tag. -/
structure Tags where
  nilOK : Bool
  tail : Bool
  ignored : Bool
deriving DecidableEq, Repr

/-- Tags.none is the zero value of the `tags` struct. -/
def Tags.noneSet : Tags := ⟨false, false, false⟩

/-- RType models the fragment of Go's type system the cache claims need:
unsigned integers, slices, named struct types (bodies live in an `Env`),
and a kind the strategy builder rejects. -/
inductive RType where
  | tuint
  | tslice (elem : RType)
  | tstruct (name : String)
  | tunsupported
deriving DecidableEq, Repr

/-- RType.isSlice mirrors the Go check `f.Type.Kind() == reflect.Slice`. -/
def RType.isSlice : RType → Bool
  | .tslice _ => true
  | _ => false

/-- StructField models one `reflect.StructField`: its name, its `PkgPath`
(empty iff the field is exported), the value of its `rlp` struct tag
(`f.Tag.Get("rlp")`), and its type. -/
structure StructField where
  name : String
  pkgPath : String
  tag : String
  ftype : RType
deriving DecidableEq, Repr

/-- Env maps struct type names to their declared field lists. -/
def Env := List (String × List StructField)

/-- envFields looks up a struct type's field list. -/
def envFields (env : Env) (n : String) : Option (List StructField) :=
  match List.find? (fun e => e.1 = n) env with
  | some e => some e.2
  | none => none

/-- Err enumerates the failure modes of the embedded functions.  The first
three mirror the three `fmt.Errorf` sites in `parseStructTag`; the
structured arguments carry exactly the data interpolated into the Go
format strings. -/
inductive Err where
  | placementNotLast (typeName fieldName : String)
  | placementNotSlice (typeName fieldName : String)
  | unknownTag (tok typeName fieldName : String)
  | unsupportedType (typ : RType)
  | unknownStruct (name : String)
  | badFieldIndex (typeName : String) (fi : Nat)
  | outOfFuel
  | nilDeref
deriving DecidableEq, Repr

/-- Err.isPlacement picks out the two `tail`-placement errors (the spec's
ModifierPlacementError kind). -/
def Err.isPlacement : Err → Bool
  | .placementNotLast _ _ => true
  | .placementNotSlice _ _ => true
  | _ => false

/-- Err.message renders the error the way the Go `fmt.Errorf` calls do. -/
def Err.message : Err → String
  | .placementNotLast ty fn =>
      "rlp: invalid struct tag \"tail\" for " ++ ty ++ "." ++ fn ++ " (must be on last field)"
  | .placementNotSlice ty fn =>
      "rlp: invalid struct tag \"tail\" for " ++ ty ++ "." ++ fn ++ " (field type is not slice)"
  | .unknownTag t ty fn =>
      "rlp: unknown struct tag \"" ++ t ++ "\" on " ++ ty ++ "." ++ fn
  | .unsupportedType _ => "rlp: type is not RLP-serializable"
  | .unknownStruct n => "rlp: unknown struct type " ++ n
  | .badFieldIndex ty _ => "rlp: field index out of range on " ++ ty
  | .outOfFuel => "model: out of fuel"
  | .nilDeref => "model: nil map entry dereferenced"

/-- splitCommaAux accumulates the current token (reversed) while walking
the characters. -/
def splitCommaAux : List Char → List Char → List String
  | [], acc => [String.mk acc.reverse]
  | c :: rest, acc =>
    if c = ',' then String.mk acc.reverse :: splitCommaAux rest []
    else splitCommaAux rest (c :: acc)

/-- splitComma models `strings.Split(s, ",")`: in particular the empty
string yields the single token `""`. -/
def splitComma (s : String) : List String :=
  splitCommaAux s.data []

/-- trimSpace models `strings.TrimSpace`: strip whitespace from both
ends. -/
def trimSpace (s : String) : String :=
  String.mk (((s.data.dropWhile Char.isWhitespace).reverse.dropWhile
    Char.isWhitespace).reverse)

/-- parseTagTokens is the loop body of `parseStructTag`: fold over the
comma-split tokens, trimming each, recognising the four token forms and
validating `tail` placement exactly as the Go switch does. -/
def parseTagTokens (typeName : String) (numFields fi : Nat) (f : StructField) :
    List String → Tags → Except Err Tags
  | [], ts => .ok ts
  | t :: rest, ts =>
    let t := trimSpace t
    if t = "" then parseTagTokens typeName numFields fi f rest ts
    else if t = "-" then parseTagTokens typeName numFields fi f rest { ts with ignored := true }
    else if t = "nil" then parseTagTokens typeName numFields fi f rest { ts with nilOK := true }
    else if t = "tail" then
      let ts := { ts with tail := true }
      if fi ≠ numFields - 1 then .error (.placementNotLast typeName f.name)
      else if ¬ f.ftype.isSlice then .error (.placementNotSlice typeName f.name)
      else parseTagTokens typeName numFields fi f rest ts
    else .error (.unknownTag t typeName f.name)

/-- parseStructTag embeds the Go function of the same name: split the
field's `rlp` tag on commas and process the tokens.  `typeName` stands in
for `%v`-formatting the `reflect.Type`. -/
def parseStructTag (typeName : String) (fields : List StructField) (fi : Nat) :
    Except Err Tags :=
  match fields[fi]? with
  | none => .error (.badFieldIndex typeName fi)
  | some f => parseTagTokens typeName fields.length fi f (splitComma f.tag) Tags.noneSet

/-- Typekey mirrors `typekey`: the cache key is the type together with the
struct tags, because the tags might generate a different decoder. -/
structure Typekey where
  typ : RType
  tags : Tags
deriving DecidableEq, Repr

/-- Ptr is a heap address: `*typeinfo` pointers are indices into the
model heap. -/
abbrev Ptr := Nat

/-- Typeinfo mirrors `typeinfo`: a decoder and a writer strategy.  The
strategies are opaque; a built strategy is tagged with the key it was
built for, and `none` is Go's nil function value (the zero value a
freshly allocated placeholder holds). -/
structure Typeinfo where
  decoder : Option Typekey
  writer : Option Typekey
deriving DecidableEq, Repr

/-- placeholderInfo is `new(typeinfo)`: the zero value, nil strategies. -/
def placeholderInfo : Typeinfo := ⟨none, none⟩

/-- State models the mutable globals: the heap of `typeinfo` records the
cache points into, the `typeCache` map itself (an association list from
keys to heap addresses), and a log of the keys `genTypeInfo` was invoked
on (newest first), which makes builder-invocation counts observable. -/
structure State where
  heap : List Typeinfo
  cache : List (Typekey × Ptr)
  builds : List Typekey
deriving DecidableEq, Repr

/-- initState is the process-start state: empty cache, empty heap. -/
def initState : State := ⟨[], [], []⟩

/-- lookupCache is `typeCache[key]`: `some p` when the key is mapped,
`none` standing for Go's nil pointer result on a missing key. -/
def lookupCache : List (Typekey × Ptr) → Typekey → Option Ptr
  | [], _ => none
  | e :: rest, k => if e.1 = k then some e.2 else lookupCache rest k

/-- eraseCache is `delete(typeCache, key)`. -/
def eraseCache : List (Typekey × Ptr) → Typekey → List (Typekey × Ptr)
  | [], _ => []
  | e :: rest, k => if e.1 = k then eraseCache rest k else e :: eraseCache rest k

/-- FieldInfo mirrors the `field` struct produced by `structFields`: the
field's declaration index paired with the pointer to its type metadata. -/
structure FieldInfo where
  index : Nat
  info : Ptr
deriving DecidableEq, Repr

/-- Resolver abbreviates the type of the re-entrant resolution callback
that `structFields` and the builder use for nested field types. -/
abbrev Resolver := State → RType → Tags → State × Except Err Ptr

/-- structFieldsAux is the loop of `structFields`, iterating the field
indices: skip non-exported fields without parsing their tags, parse the
tag of each exported field, skip ignored fields, resolve each kept
field's type through the re-entrant resolver, and abort on the first
error. -/
def structFieldsAux (recur : Resolver) (typeName : String) (fields : List StructField) :
    List Nat → State → State × Except Err (List FieldInfo)
  | [], st => (st, .ok [])
  | i :: rest, st =>
    match fields[i]? with
    | none => (st, .error (.badFieldIndex typeName i))
    | some f =>
      if f.pkgPath = "" then
        match parseStructTag typeName fields i with
        | .error e => (st, .error e)
        | .ok tg =>
          if tg.ignored then structFieldsAux recur typeName fields rest st
          else
            match recur st f.ftype tg with
            | (st1, .error e) => (st1, .error e)
            | (st1, .ok p) =>
              match structFieldsAux recur typeName fields rest st1 with
              | (st2, .error e) => (st2, .error e)
              | (st2, .ok fs) => (st2, .ok (⟨i, p⟩ :: fs))
      else structFieldsAux recur typeName fields rest st

/-- structFields embeds the Go function of the same name, looping the
field indices `0, ..., NumField-1`. -/
def structFields (recur : Resolver) (typeName : String) (fields : List StructField)
    (st : State) : State × Except Err (List FieldInfo) :=
  structFieldsAux recur typeName fields (List.range fields.length) st

/-- genTypeInfo embeds the builder invoked by `cachedTypeInfo1`.  The
entry is logged in `builds`.  `genTypeInfo` itself is in the source; the
bodies of `makeDecoder`/`makeWriter` it calls are not under `src/`, so
their dispatch is modelled from the spec: primitive kinds get opaque
strategies, a sequence kind resolves its element type re-entrantly with
empty tags, a composite kind enumerates its fields via `structFields`
(which re-enters resolution for each kept field, matching spec §4.2-4.3),
and an unsupported kind fails, giving the builder its spec'd failure
mode. -/
def genTypeInfo (recur : Resolver) (env : Env) (st : State) (typ : RType) (tg : Tags) :
    State × Except Err Typeinfo :=
  let st := { st with builds := (⟨typ, tg⟩ : Typekey) :: st.builds }
  match typ with
  | .tuint => (st, .ok ⟨some ⟨typ, tg⟩, some ⟨typ, tg⟩⟩)
  | .tslice elem =>
    match recur st elem Tags.noneSet with
    | (st1, .error e) => (st1, .error e)
    | (st1, .ok _) => (st1, .ok ⟨some ⟨typ, tg⟩, some ⟨typ, tg⟩⟩)
  | .tstruct n =>
    match envFields env n with
    | none => (st, .error (.unknownStruct n))
    | some fields =>
      match structFields recur n fields st with
      | (st1, .error e) => (st1, .error e)
      | (st1, .ok _) => (st1, .ok ⟨some ⟨typ, tg⟩, some ⟨typ, tg⟩⟩)
  | .tunsupported => (st, .error (.unsupportedType typ))

/-- allocSt performs `typeCache[key] = new(typeinfo)`: allocate a fresh
zero-valued placeholder cell on the heap (its address is the old heap
length) and map the key to it. -/
def allocSt (st : State) (key : Typekey) : State :=
  { heap := st.heap ++ [placeholderInfo], cache := (key, st.heap.length) :: st.cache,
    builds := st.builds }

/-- cachedTypeInfo1 embeds the Go function of the same name: look the key
up (a hit — in particular a placeholder inserted by an enclosing
resolution of the same key — returns that entry's pointer at once);
on a miss insert a fresh placeholder under the key, run the builder,
delete the key on failure, and on success copy the built record into the
map entry's cell (`*typeCache[key] = *info`) and return `typeCache[key]`.
The fuel argument only bounds the build recursion depth for Lean's sake;
the cache-hit path needs no fuel. -/
def cachedTypeInfo1 (env : Env) : Nat → Resolver
  | fuel, st, typ, tg =>
    let key : Typekey := ⟨typ, tg⟩
    match lookupCache st.cache key with
    | some p => (st, .ok p)
    | none =>
      match fuel with
      | 0 => (st, .error .outOfFuel)
      | f + 1 =>
        match genTypeInfo (cachedTypeInfo1 env f) env (allocSt st key) typ tg with
        | (st2, .error e) => ({ st2 with cache := eraseCache st2.cache key }, .error e)
        | (st2, .ok info) =>
          match lookupCache st2.cache key with
          | some q => ({ st2 with heap := st2.heap.set q info }, .ok q)
          | none => (st2, .error .nilDeref)

/-- cachedTypeInfo embeds the public entry point: a read-locked fast-path
lookup, then (on a miss) the write-locked `cachedTypeInfo1`.  The locks
serialize; in this sequential model they are no-ops. -/
def cachedTypeInfo (env : Env) (fuel : Nat) (st : State) (typ : RType) (tg : Tags) :
    State × Except Err Ptr :=
  match lookupCache st.cache ⟨typ, tg⟩ with
  | some p => (st, .ok p)
  | none => cachedTypeInfo1 env fuel st typ tg

/-! ### Basic lemmas about the cache map -/

theorem lookupCache_cons_self (c : List (Typekey × Ptr)) (k : Typekey) (p : Ptr) :
    lookupCache ((k, p) :: c) k = some p := by
  simp [lookupCache]

theorem lookupCache_cons_ne (c : List (Typekey × Ptr)) (k k' : Typekey) (p : Ptr)
    (h : k' ≠ k) : lookupCache ((k, p) :: c) k' = lookupCache c k' := by
  simp only [lookupCache]
  rw [if_neg (fun hh => h hh.symm)]

theorem lookupCache_erase_self (c : List (Typekey × Ptr)) (k : Typekey) :
    lookupCache (eraseCache c k) k = none := by
  induction c with
  | nil => rfl
  | cons e rest ih =>
    simp only [eraseCache]
    by_cases he : e.1 = k
    · rw [if_pos he]
      exact ih
    · rw [if_neg he]
      simp only [lookupCache]
      rw [if_neg he]
      exact ih

theorem lookupCache_erase_ne (c : List (Typekey × Ptr)) (k k' : Typekey) (h : k' ≠ k) :
    lookupCache (eraseCache c k) k' = lookupCache c k' := by
  induction c with
  | nil => rfl
  | cons e rest ih =>
    simp only [eraseCache]
    by_cases he : e.1 = k
    · rw [if_pos he]
      rw [ih]
      simp only [lookupCache]
      rw [if_neg (fun hh => h (hh.symm.trans he))]
    · rw [if_neg he]
      simp only [lookupCache]
      rw [ih]

/-! ### A step preorder on states

StepOK records what every operation of the embedding preserves: existing
cache bindings keep their pointers (entries are never rebound), the
builder log only grows, and the heap only grows. -/

/-- StepOK st st' says st' extends st: every cache binding of st is still
bound to the same pointer in st', st's build log is a suffix of st's, and
the heap has not shrunk. -/
def StepOK (st st' : State) : Prop :=
  (∀ k q, lookupCache st.cache k = some q → lookupCache st'.cache k = some q) ∧
  st.builds.IsSuffix st'.builds ∧ st.heap.length ≤ st'.heap.length

theorem StepOK.refl (st : State) : StepOK st st :=
  ⟨fun _ _ h => h, List.suffix_refl _, Nat.le_refl _⟩

theorem StepOK.trans {s1 s2 s3 : State} (h1 : StepOK s1 s2) (h2 : StepOK s2 s3) :
    StepOK s1 s3 :=
  ⟨fun k q h => h2.1 k q (h1.1 k q h), h1.2.1.trans h2.2.1, h1.2.2.trans h2.2.2⟩

/-- Preserves says a resolver only ever extends the state. -/
def Preserves (r : Resolver) : Prop :=
  ∀ st t g, StepOK st (r st t g).1

theorem structFieldsAux_stepOK (recur : Resolver) (hr : Preserves recur)
    (ty : String) (fields : List StructField) :
    ∀ idxs st, StepOK st (structFieldsAux recur ty fields idxs st).1 := by
  intro idxs
  induction idxs with
  | nil => intro st; exact StepOK.refl st
  | cons i rest ih =>
    intro st
    simp only [structFieldsAux]
    cases hfi : fields[i]? with
    | none => exact StepOK.refl st
    | some f =>
      dsimp only
      by_cases hpkg : f.pkgPath = ""
      · rw [if_pos hpkg]
        cases hpt : parseStructTag ty fields i with
        | error e => exact StepOK.refl st
        | ok tg =>
          dsimp only
          by_cases hig : tg.ignored = true
          · rw [if_pos hig]
            exact ih st
          · rw [if_neg hig]
            cases hrec : recur st f.ftype tg with
            | mk st1 r =>
              have h1 : StepOK st st1 := by
                have := hr st f.ftype tg
                rw [hrec] at this
                exact this
              cases r with
              | error e => exact h1
              | ok p =>
                dsimp only
                cases hrest : structFieldsAux recur ty fields rest st1 with
                | mk st2 r2 =>
                  have h2 : StepOK st1 st2 := by
                    have := ih st1
                    rw [hrest] at this
                    exact this
                  cases r2 with
                  | error e => exact h1.trans h2
                  | ok fs => exact h1.trans h2
      · rw [if_neg hpkg]
        exact ih st

theorem genTypeInfo_stepOK_log (recur : Resolver) (hr : Preserves recur) (env : Env)
    (st : State) (typ : RType) (tg : Tags) :
    StepOK { st with builds := (⟨typ, tg⟩ : Typekey) :: st.builds }
      (genTypeInfo recur env st typ tg).1 := by
  simp only [genTypeInfo]
  cases typ with
  | tuint => exact StepOK.refl _
  | tslice elem =>
    dsimp only
    cases hrec : recur { st with builds := (⟨.tslice elem, tg⟩ : Typekey) :: st.builds }
        elem Tags.noneSet with
    | mk st1 r =>
      have h1 : StepOK { st with builds := (⟨.tslice elem, tg⟩ : Typekey) :: st.builds } st1 := by
        have := hr { st with builds := (⟨.tslice elem, tg⟩ : Typekey) :: st.builds }
          elem Tags.noneSet
        rw [hrec] at this
        exact this
      cases r with
      | error e => exact h1
      | ok p => exact h1
  | tstruct n =>
    dsimp only
    cases he : envFields env n with
    | none => exact StepOK.refl _
    | some fields =>
      dsimp only
      cases hsf : structFields recur n fields
          { st with builds := (⟨.tstruct n, tg⟩ : Typekey) :: st.builds } with
      | mk st1 r =>
        have h1 : StepOK { st with builds := (⟨.tstruct n, tg⟩ : Typekey) :: st.builds } st1 := by
          have := structFieldsAux_stepOK recur hr n fields (List.range fields.length)
            { st with builds := (⟨.tstruct n, tg⟩ : Typekey) :: st.builds }
          rw [structFields] at hsf
          rw [hsf] at this
          exact this
        cases r with
        | error e => exact h1
        | ok fs => exact h1
  | tunsupported => exact StepOK.refl _

theorem genTypeInfo_stepOK (recur : Resolver) (hr : Preserves recur) (env : Env)
    (st : State) (typ : RType) (tg : Tags) :
    StepOK st (genTypeInfo recur env st typ tg).1 := by
  have hlog : StepOK st { st with builds := (⟨typ, tg⟩ : Typekey) :: st.builds } :=
    ⟨fun _ _ h => h, List.suffix_cons _ _, Nat.le_refl _⟩
  exact hlog.trans (genTypeInfo_stepOK_log recur hr env st typ tg)

theorem cachedTypeInfo1_stepOK (env : Env) :
    ∀ fuel, Preserves (cachedTypeInfo1 env fuel) := by
  intro fuel
  induction fuel with
  | zero =>
    intro st typ tg
    simp only [cachedTypeInfo1]
    cases hl : lookupCache st.cache ⟨typ, tg⟩ with
    | some p => exact StepOK.refl st
    | none => exact StepOK.refl st
  | succ f ih =>
    intro st typ tg
    simp only [cachedTypeInfo1]
    cases hl : lookupCache st.cache ⟨typ, tg⟩ with
    | some p => exact StepOK.refl st
    | none =>
      have hst1 : StepOK st (allocSt st ⟨typ, tg⟩) := by
        refine ⟨?_, List.suffix_refl _, ?_⟩
        · intro k q hk
          have hkne : k ≠ ⟨typ, tg⟩ := by
            intro he
            rw [he, hl] at hk
            cases hk
          rw [allocSt]
          rw [lookupCache_cons_ne _ _ _ _ hkne]
          exact hk
        · rw [allocSt]
          simp
      cases hgen : genTypeInfo (cachedTypeInfo1 env f) env (allocSt st ⟨typ, tg⟩) typ tg with
      | mk st2 r =>
        dsimp only
        have h2 : StepOK st st2 := by
          have := genTypeInfo_stepOK (cachedTypeInfo1 env f) ih env
            (allocSt st ⟨typ, tg⟩) typ tg
          rw [hgen] at this
          exact hst1.trans this
        cases r with
        | error e =>
          refine ⟨?_, h2.2.1, h2.2.2⟩
          intro k q hk
          have hkne : k ≠ ⟨typ, tg⟩ := by
            intro he
            rw [he, hl] at hk
            cases hk
          rw [lookupCache_erase_ne _ _ _ hkne]
          exact h2.1 k q hk
        | ok info =>
          dsimp only
          cases hq : lookupCache st2.cache ⟨typ, tg⟩ with
          | none => exact h2
          | some q =>
            dsimp only
            refine ⟨h2.1, h2.2.1, ?_⟩
            have := h2.2.2
            simpa using this

/-! ### Characterizations of the resolver's paths -/

/-- A cache hit short-circuits: whenever the key is already mapped — in
particular when the entry is a placeholder inserted by an enclosing
resolution — `cachedTypeInfo1` returns the mapped pointer with the state
untouched, for any fuel. -/
theorem cachedTypeInfo1_hit (env : Env) (fuel : Nat) (st : State) (typ : RType)
    (tg : Tags) (p : Ptr) (h : lookupCache st.cache ⟨typ, tg⟩ = some p) :
    cachedTypeInfo1 env fuel st typ tg = (st, .ok p) := by
  cases fuel with
  | zero => simp only [cachedTypeInfo1, h]
  | succ f => simp only [cachedTypeInfo1, h]

/-- On a miss with zero fuel the model reports fuel exhaustion (a model
artifact; the Go code has no such path because the placeholder guard
bounds the recursion). -/
theorem cachedTypeInfo1_miss_zero (env : Env) (st : State) (typ : RType) (tg : Tags)
    (h : lookupCache st.cache ⟨typ, tg⟩ = none) :
    cachedTypeInfo1 env 0 st typ tg = (st, .error .outOfFuel) := by
  simp only [cachedTypeInfo1, h]

/-- On a miss `cachedTypeInfo1` inserts the placeholder and dispatches on
the builder's outcome. -/
theorem cachedTypeInfo1_miss_succ (env : Env) (f : Nat) (st : State) (typ : RType)
    (tg : Tags) (h : lookupCache st.cache ⟨typ, tg⟩ = none) :
    cachedTypeInfo1 env (f + 1) st typ tg =
      match genTypeInfo (cachedTypeInfo1 env f) env (allocSt st ⟨typ, tg⟩) typ tg with
      | (st2, .error e) =>
        ({ st2 with cache := eraseCache st2.cache ⟨typ, tg⟩ }, .error e)
      | (st2, .ok info) =>
        match lookupCache st2.cache ⟨typ, tg⟩ with
        | some q => ({ st2 with heap := st2.heap.set q info }, .ok q)
        | none => (st2, .error .nilDeref) := by
  simp only [cachedTypeInfo1, h]

/-- Whatever the builder dispatched on, a successful build always returns
the strategies tagged with the requested key. -/
theorem genTypeInfo_ok_info (recur : Resolver) (env : Env) (st : State) (typ : RType)
    (tg : Tags) (st' : State) (info : Typeinfo)
    (h : genTypeInfo recur env st typ tg = (st', .ok info)) :
    info = ⟨some ⟨typ, tg⟩, some ⟨typ, tg⟩⟩ := by
  simp only [genTypeInfo] at h
  cases typ with
  | tuint =>
    injection h with h1 h2
    injection h2 with h3
    exact h3.symm
  | tslice elem =>
    dsimp only at h
    cases hrec : recur { st with builds := (⟨.tslice elem, tg⟩ : Typekey) :: st.builds }
        elem Tags.noneSet with
    | mk st1 r =>
      rw [hrec] at h
      cases r with
      | error e =>
        injection h with h1 h2
        cases h2
      | ok p =>
        injection h with h1 h2
        injection h2 with h3
        exact h3.symm
  | tstruct n =>
    dsimp only at h
    cases he : envFields env n with
    | none =>
      rw [he] at h
      injection h with h1 h2
      cases h2
    | some fields =>
      rw [he] at h
      dsimp only at h
      cases hsf : structFields recur n fields
          { st with builds := (⟨.tstruct n, tg⟩ : Typekey) :: st.builds } with
      | mk st1 r =>
        rw [hsf] at h
        cases r with
        | error e =>
          injection h with h1 h2
          cases h2
        | ok fs =>
          injection h with h1 h2
          injection h2 with h3
          exact h3.symm
  | tunsupported =>
    injection h with h1 h2
    cases h2

/-- A successful resolve leaves the key bound to exactly the returned
pointer. -/
theorem cachedTypeInfo1_ok_binds (env : Env) (fuel : Nat) (st : State) (typ : RType)
    (tg : Tags) (st₁ : State) (p : Ptr)
    (h : cachedTypeInfo1 env fuel st typ tg = (st₁, .ok p)) :
    lookupCache st₁.cache ⟨typ, tg⟩ = some p := by
  cases hl : lookupCache st.cache ⟨typ, tg⟩ with
  | some q =>
    rw [cachedTypeInfo1_hit env fuel st typ tg q hl] at h
    injection h with h1 h2
    injection h2 with h3
    rw [← h1, hl, h3]
  | none =>
    cases fuel with
    | zero =>
      rw [cachedTypeInfo1_miss_zero env st typ tg hl] at h
      injection h with h1 h2
      cases h2
    | succ f =>
      rw [cachedTypeInfo1_miss_succ env f st typ tg hl] at h
      cases hgen : genTypeInfo (cachedTypeInfo1 env f) env (allocSt st ⟨typ, tg⟩) typ tg with
      | mk st2 r =>
        rw [hgen] at h
        cases r with
        | error e =>
          dsimp only at h
          injection h with h1 h2
          cases h2
        | ok info =>
          dsimp only at h
          cases hq : lookupCache st2.cache ⟨typ, tg⟩ with
          | none =>
            rw [hq] at h
            injection h with h1 h2
            cases h2
          | some q =>
            rw [hq] at h
            injection h with h1 h2
            injection h2 with h3
            rw [← h1, ← h3]
            exact hq

/-- A failed resolve leaves the cache with no entry for the key: either
the placeholder inserted by this call was deleted, or the key was never
inserted at all. -/
theorem cachedTypeInfo1_error_evicts (env : Env) (fuel : Nat) (st : State) (typ : RType)
    (tg : Tags) (st₁ : State) (e : Err)
    (h : cachedTypeInfo1 env fuel st typ tg = (st₁, .error e)) :
    lookupCache st₁.cache ⟨typ, tg⟩ = none := by
  cases hl : lookupCache st.cache ⟨typ, tg⟩ with
  | some q =>
    rw [cachedTypeInfo1_hit env fuel st typ tg q hl] at h
    injection h with h1 h2
    cases h2
  | none =>
    cases fuel with
    | zero =>
      rw [cachedTypeInfo1_miss_zero env st typ tg hl] at h
      injection h with h1 h2
      rw [← h1]
      exact hl
    | succ f =>
      rw [cachedTypeInfo1_miss_succ env f st typ tg hl] at h
      cases hgen : genTypeInfo (cachedTypeInfo1 env f) env (allocSt st ⟨typ, tg⟩) typ tg with
      | mk st2 r =>
        rw [hgen] at h
        cases r with
        | error e' =>
          dsimp only at h
          injection h with h1 h2
          rw [← h1]
          exact lookupCache_erase_self _ _
        | ok info =>
          dsimp only at h
          cases hq : lookupCache st2.cache ⟨typ, tg⟩ with
          | none =>
            rw [hq] at h
            injection h with h1 h2
            rw [← h1]
            exact hq
          | some q =>
            rw [hq] at h
            injection h with h1 h2
            cases h2

/-- A resolve that had to build returns exactly the placeholder pointer it
allocated on entry (the pre-insertion address, the old heap length), the
key stays bound to that same pointer, and the cell now holds the built
strategies: the placeholder was completed in place, not replaced. -/
theorem cachedTypeInfo1_miss_ok (env : Env) (fuel : Nat) (st : State) (typ : RType)
    (tg : Tags) (st₁ : State) (p : Ptr)
    (hl : lookupCache st.cache ⟨typ, tg⟩ = none)
    (h : cachedTypeInfo1 env fuel st typ tg = (st₁, .ok p)) :
    p = st.heap.length ∧ lookupCache st₁.cache ⟨typ, tg⟩ = some p ∧
      st₁.heap[p]? = some ⟨some ⟨typ, tg⟩, some ⟨typ, tg⟩⟩ := by
  cases fuel with
  | zero =>
    rw [cachedTypeInfo1_miss_zero env st typ tg hl] at h
    injection h with h1 h2
    cases h2
  | succ f =>
    rw [cachedTypeInfo1_miss_succ env f st typ tg hl] at h
    cases hgen : genTypeInfo (cachedTypeInfo1 env f) env (allocSt st ⟨typ, tg⟩) typ tg with
    | mk st2 r =>
      rw [hgen] at h
      have hpre : StepOK (allocSt st ⟨typ, tg⟩) st2 := by
        have := genTypeInfo_stepOK (cachedTypeInfo1 env f) (cachedTypeInfo1_stepOK env f)
          env (allocSt st ⟨typ, tg⟩) typ tg
        rw [hgen] at this
        exact this
      cases r with
      | error e =>
        dsimp only at h
        injection h with h1 h2
        cases h2
      | ok info =>
        dsimp only at h
        have hb : lookupCache st2.cache ⟨typ, tg⟩ = some st.heap.length := by
          apply hpre.1
          exact lookupCache_cons_self _ _ _
        rw [hb] at h
        dsimp only at h
        injection h with h1 h2
        injection h2 with h3
        subst h1
        subst h3
        have hinfo : info = ⟨some ⟨typ, tg⟩, some ⟨typ, tg⟩⟩ :=
          genTypeInfo_ok_info _ env _ typ tg st2 info hgen
        have hlen : st.heap.length < st2.heap.length := by
          have := hpre.2.2
          simp only [allocSt, List.length_append, List.length_singleton] at this
          omega
        refine ⟨rfl, hb, ?_⟩
        rw [hinfo] at *
        exact List.getElem?_set_eq_of_lt _ hlen

/-- A resolve that misses always reaches the builder: the build log gains
at least one new entry for the key, so a later resolve of an evicted key
attempts the build again. -/
theorem cachedTypeInfo1_miss_builds (env : Env) (f : Nat) (st : State) (typ : RType)
    (tg : Tags) (hl : lookupCache st.cache ⟨typ, tg⟩ = none) :
    st.builds.count ⟨typ, tg⟩ <
      ((cachedTypeInfo1 env (f + 1) st typ tg).1).builds.count ⟨typ, tg⟩ := by
  rw [cachedTypeInfo1_miss_succ env f st typ tg hl]
  cases hgen : genTypeInfo (cachedTypeInfo1 env f) env (allocSt st ⟨typ, tg⟩) typ tg with
  | mk st2 r =>
    have hsuf : ((⟨typ, tg⟩ : Typekey) :: st.builds).IsSuffix st2.builds := by
      have := genTypeInfo_stepOK_log (cachedTypeInfo1 env f) (cachedTypeInfo1_stepOK env f)
        env (allocSt st ⟨typ, tg⟩) typ tg
      rw [hgen] at this
      exact this.2.1
    have hcount : st.builds.count ⟨typ, tg⟩ < st2.builds.count ⟨typ, tg⟩ := by
      have h1 := (hsuf.sublist).count_le (⟨typ, tg⟩ : Typekey)
      rw [List.count_cons_self] at h1
      omega
    cases r with
    | error e => exact hcount
    | ok info =>
      dsimp only
      cases hq : lookupCache st2.cache ⟨typ, tg⟩ with
      | none => exact hcount
      | some q => exact hcount

/-- The read-locked fast path: a mapped key returns its pointer without
touching the state. -/
theorem cachedTypeInfo_hit (env : Env) (fuel : Nat) (st : State) (typ : RType)
    (tg : Tags) (p : Ptr) (h : lookupCache st.cache ⟨typ, tg⟩ = some p) :
    cachedTypeInfo env fuel st typ tg = (st, .ok p) := by
  simp only [cachedTypeInfo, h]

/-- A successful top-level resolve leaves the key bound to the returned
pointer. -/
theorem cachedTypeInfo_ok_binds (env : Env) (fuel : Nat) (st : State) (typ : RType)
    (tg : Tags) (st₁ : State) (p : Ptr)
    (h : cachedTypeInfo env fuel st typ tg = (st₁, .ok p)) :
    lookupCache st₁.cache ⟨typ, tg⟩ = some p := by
  cases hl : lookupCache st.cache ⟨typ, tg⟩ with
  | some q =>
    rw [cachedTypeInfo_hit env fuel st typ tg q hl] at h
    injection h with h1 h2
    injection h2 with h3
    rw [← h1, ← h3]
    exact hl
  | none =>
    simp only [cachedTypeInfo, hl] at h
    exact cachedTypeInfo1_ok_binds env fuel st typ tg st₁ p h

/-! ### Lemmas about the modifier parser -/

theorem parseStructTag_some (ty : String) (fields : List StructField) (fi : Nat)
    (f : StructField) (h : fields[fi]? = some f) :
    parseStructTag ty fields fi =
      parseTagTokens ty fields.length fi f (splitComma f.tag) Tags.noneSet := by
  simp only [parseStructTag, h]

theorem splitCommaAux_no_comma :
    ∀ (cs acc : List Char), ',' ∉ cs →
      splitCommaAux cs acc = [String.mk (acc.reverse ++ cs)] := by
  intro cs
  induction cs with
  | nil => intro acc _; simp [splitCommaAux]
  | cons c rest ih =>
    intro acc h
    have hc : ¬ c = ',' := fun hc => h (hc ▸ List.mem_cons_self c rest)
    have hr : ',' ∉ rest := fun hr => h (List.mem_cons_of_mem c hr)
    simp only [splitCommaAux]
    rw [if_neg hc]
    rw [ih (c :: acc) hr]
    simp

theorem splitComma_no_comma (t : String) (h : ',' ∉ t.data) : splitComma t = [t] := by
  rw [splitComma, splitCommaAux_no_comma t.data [] h]
  rfl

/-- GoodTok singles out the tokens the grammar accepts. -/
def GoodTok (t : String) : Prop :=
  trimSpace t = "" ∨ trimSpace t = "-" ∨ trimSpace t = "nil" ∨ trimSpace t = "tail"

/-- On a last slice field, a declaration of accepted tokens parses
successfully, and the result records `tail` whenever a `tail` token was
present (or already accumulated). -/
theorem parseTagTokens_good_ok (ty : String) (n fi : Nat) (f : StructField)
    (hlast : fi = n - 1) (hslice : f.ftype.isSlice = true) :
    ∀ (toks : List String) (ts : Tags), (∀ t ∈ toks, GoodTok t) →
      ∃ ts', parseTagTokens ty n fi f toks ts = .ok ts' ∧
        ((ts.tail = true ∨ "tail" ∈ toks.map trimSpace) → ts'.tail = true) := by
  intro toks
  induction toks with
  | nil =>
    intro ts _
    refine ⟨ts, rfl, fun hc => ?_⟩
    rcases hc with h1 | h2
    · exact h1
    · simp at h2
  | cons t rest ih =>
    intro ts hg
    have hgt := hg t (List.mem_cons_self t rest)
    have hgr : ∀ u ∈ rest, GoodTok u := fun u hu => hg u (List.mem_cons_of_mem t hu)
    simp only [parseTagTokens]
    rcases hgt with h0 | h0 | h0 | h0
    · rw [if_pos h0]
      obtain ⟨ts', hok, htail⟩ := ih ts hgr
      refine ⟨ts', hok, fun hc => htail ?_⟩
      rcases hc with h1 | h2
      · exact Or.inl h1
      · rw [List.map_cons, h0] at h2
        rcases List.mem_cons.mp h2 with h3 | h3
        · exact absurd h3 (by decide)
        · exact Or.inr h3
    · rw [if_neg (h0 ▸ (by decide : ¬("-" : String) = "")), if_pos h0]
      obtain ⟨ts', hok, htail⟩ := ih { ts with ignored := true } hgr
      refine ⟨ts', hok, fun hc => htail ?_⟩
      rcases hc with h1 | h2
      · exact Or.inl h1
      · rw [List.map_cons, h0] at h2
        rcases List.mem_cons.mp h2 with h3 | h3
        · exact absurd h3 (by decide)
        · exact Or.inr h3
    · rw [if_neg (h0 ▸ (by decide : ¬("nil" : String) = "")),
        if_neg (h0 ▸ (by decide : ¬("nil" : String) = "-")), if_pos h0]
      obtain ⟨ts', hok, htail⟩ := ih { ts with nilOK := true } hgr
      refine ⟨ts', hok, fun hc => htail ?_⟩
      rcases hc with h1 | h2
      · exact Or.inl h1
      · rw [List.map_cons, h0] at h2
        rcases List.mem_cons.mp h2 with h3 | h3
        · exact absurd h3 (by decide)
        · exact Or.inr h3
    · rw [if_neg (h0 ▸ (by decide : ¬("tail" : String) = "")),
        if_neg (h0 ▸ (by decide : ¬("tail" : String) = "-")),
        if_neg (h0 ▸ (by decide : ¬("tail" : String) = "nil")), if_pos h0]
      rw [if_neg (fun hc => hc hlast), if_neg (fun hc => hc hslice)]
      obtain ⟨ts', hok, htail⟩ := ih { ts with tail := true } hgr
      exact ⟨ts', hok, fun _ => htail (Or.inl rfl)⟩

/-- On a field that is not a last slice field, a declaration of accepted
tokens containing `tail` is rejected with a placement error. -/
theorem parseTagTokens_tail_err (ty : String) (n fi : Nat) (f : StructField)
    (hnot : ¬(fi = n - 1 ∧ f.ftype.isSlice = true)) :
    ∀ (toks : List String) (ts : Tags), (∀ t ∈ toks, GoodTok t) →
      "tail" ∈ toks.map trimSpace →
      ∃ e, parseTagTokens ty n fi f toks ts = .error e ∧ e.isPlacement = true := by
  intro toks
  induction toks with
  | nil =>
    intro ts _ hm
    simp at hm
  | cons t rest ih =>
    intro ts hg hm
    have hgt := hg t (List.mem_cons_self t rest)
    have hgr : ∀ u ∈ rest, GoodTok u := fun u hu => hg u (List.mem_cons_of_mem t hu)
    simp only [parseTagTokens]
    rcases hgt with h0 | h0 | h0 | h0
    · rw [if_pos h0]
      apply ih ts hgr
      rw [List.map_cons, h0] at hm
      rcases List.mem_cons.mp hm with h3 | h3
      · exact absurd h3 (by decide)
      · exact h3
    · rw [if_neg (h0 ▸ (by decide : ¬("-" : String) = "")), if_pos h0]
      apply ih { ts with ignored := true } hgr
      rw [List.map_cons, h0] at hm
      rcases List.mem_cons.mp hm with h3 | h3
      · exact absurd h3 (by decide)
      · exact h3
    · rw [if_neg (h0 ▸ (by decide : ¬("nil" : String) = "")),
        if_neg (h0 ▸ (by decide : ¬("nil" : String) = "-")), if_pos h0]
      apply ih { ts with nilOK := true } hgr
      rw [List.map_cons, h0] at hm
      rcases List.mem_cons.mp hm with h3 | h3
      · exact absurd h3 (by decide)
      · exact h3
    · rw [if_neg (h0 ▸ (by decide : ¬("tail" : String) = "")),
        if_neg (h0 ▸ (by decide : ¬("tail" : String) = "-")),
        if_neg (h0 ▸ (by decide : ¬("tail" : String) = "nil")), if_pos h0]
      by_cases hfi : fi = n - 1
      · have hsl : ¬ f.ftype.isSlice = true := fun hs => hnot ⟨hfi, hs⟩
        rw [if_neg (fun hc => hc hfi), if_pos hsl]
        exact ⟨.placementNotSlice ty f.name, rfl, rfl⟩
      · rw [if_pos hfi]
        exact ⟨.placementNotLast ty f.name, rfl, rfl⟩

/-! ### Lemmas about the field enumerator -/

/-- fieldKept says field `i` of the struct contributes a descriptor: it is
exported and its parsed tags do not mark it ignored. -/
def fieldKept (ty : String) (fields : List StructField) (i : Nat) : Bool :=
  match fields[i]? with
  | none => false
  | some f =>
    (f.pkgPath == "") &&
      match parseStructTag ty fields i with
      | .ok tg => !tg.ignored
      | .error _ => false

/-- A successful enumeration returns exactly the kept indices, in order. -/
theorem structFieldsAux_ok_indices (recur : Resolver) (ty : String)
    (fields : List StructField) :
    ∀ (idxs : List Nat) (st st' : State) (fs : List FieldInfo),
      structFieldsAux recur ty fields idxs st = (st', .ok fs) →
      fs.map FieldInfo.index = idxs.filter (fieldKept ty fields) := by
  intro idxs
  induction idxs with
  | nil =>
    intro st st' fs h
    simp only [structFieldsAux] at h
    injection h with h1 h2
    injection h2 with h3
    rw [← h3]
    rfl
  | cons i rest ih =>
    intro st st' fs h
    simp only [structFieldsAux] at h
    cases hfi : fields[i]? with
    | none =>
      rw [hfi] at h
      injection h with h1 h2
      cases h2
    | some f =>
      rw [hfi] at h
      dsimp only at h
      by_cases hpkg : f.pkgPath = ""
      · rw [if_pos hpkg] at h
        cases hpt : parseStructTag ty fields i with
        | error e =>
          rw [hpt] at h
          dsimp only at h
          injection h with h1 h2
          cases h2
        | ok tg =>
          rw [hpt] at h
          dsimp only at h
          by_cases hig : tg.ignored = true
          · rw [if_pos hig] at h
            have hk : fieldKept ty fields i = false := by
              simp [fieldKept, hfi, hpt, hig]
            rw [List.filter_cons_of_neg (by simp [hk])]
            exact ih st st' fs h
          · rw [if_neg hig] at h
            cases hrec : recur st f.ftype tg with
            | mk st1 r =>
              rw [hrec] at h
              cases r with
              | error e =>
                injection h with h1 h2
                cases h2
              | ok p =>
                dsimp only at h
                cases hrest : structFieldsAux recur ty fields rest st1 with
                | mk st2 r2 =>
                  rw [hrest] at h
                  cases r2 with
                  | error e =>
                    injection h with h1 h2
                    cases h2
                  | ok fs2 =>
                    injection h with h1 h2
                    injection h2 with h3
                    have hk : fieldKept ty fields i = true := by
                      simp at hig
                      simp [fieldKept, hfi, hpt, hpkg, hig]
                    rw [List.filter_cons_of_pos (by rw [hk])]
                    rw [← h3]
                    simp only [List.map_cons]
                    rw [ih st1 st2 fs2 hrest]
      · rw [if_neg hpkg] at h
        have hk : fieldKept ty fields i = false := by
          simp [fieldKept, hfi, hpkg]
        rw [List.filter_cons_of_neg (by simp [hk])]
        exact ih st st' fs h

/-! ### Concrete fixtures used by the claim theorems and witnesses -/

/-- envA declares the self-referential struct `type A struct { F A }`:
resolving A re-enters resolution with exactly the same key. -/
def envA : Env := [("A", [⟨"F", "", "", .tstruct "A"⟩])]

/-- keyA is the cache key of the self-referential struct with empty tags. -/
def keyA : Typekey := ⟨.tstruct "A", Tags.noneSet⟩

/-- infoA is the metadata built for `A`. -/
def infoA : Typeinfo := ⟨some keyA, some keyA⟩

/-- stA is the state after resolving `A` from scratch: one fully built
cell, the key bound to it, one builder invocation. -/
def stA : State := ⟨[infoA], [(keyA, 0)], [keyA]⟩

/-- keyU is the cache key of the uint kind with empty tags. -/
def keyU : Typekey := ⟨.tuint, Tags.noneSet⟩

/-- infoU is the metadata built for the uint kind. -/
def infoU : Typeinfo := ⟨some keyU, some keyU⟩

/-- stU is the state after resolving the uint kind from scratch. -/
def stU : State := ⟨[infoU], [(keyU, 0)], [keyU]⟩

/-- envB declares `type B struct { F uint; G unsupported }`: building B
resolves F's type successfully, then fails on G's type. -/
def envB : Env := [("B", [⟨"F", "", "", .tuint⟩, ⟨"G", "", "", .tunsupported⟩])]

/-- keyB is the cache key of struct B with empty tags. -/
def keyB : Typekey := ⟨.tstruct "B", Tags.noneSet⟩

/-- stB is the state after the failed resolve of B: the placeholders of B
and of the unsupported kind were evicted (their heap cells remain, as in
Go, unreferenced), the successfully built uint entry survives at address
1, and the builder ran for B, uint, and the unsupported kind. -/
def stB : State :=
  ⟨[placeholderInfo, infoU, placeholderInfo], [(keyU, 1)],
    [⟨.tunsupported, Tags.noneSet⟩, keyU, keyB]⟩

/-! ### The claim theorems -/

/-- C1: whenever the key being resolved is already mapped — in particular
when an enclosing resolution of the same key has inserted its placeholder
— the re-entrant `cachedTypeInfo1` call returns the mapped (placeholder)
pointer at once with the state unchanged, so the builder is not invoked
again and no cycle-detected error exists; concretely, the directly
self-referential struct A resolves successfully with exactly one builder
invocation. -/
theorem c1_recursive_resolution_short_circuits :
    (∀ (env : Env) (fuel : Nat) (st : State) (typ : RType) (tg : Tags) (p : Ptr),
        lookupCache st.cache ⟨typ, tg⟩ = some p →
        cachedTypeInfo1 env fuel st typ tg = (st, .ok p)) ∧
    cachedTypeInfo envA 1 initState (.tstruct "A") Tags.noneSet = (stA, .ok 0) ∧
    stA.builds.count keyA = 1 :=
  ⟨fun env fuel st typ tg p h => cachedTypeInfo1_hit env fuel st typ tg p h, rfl, rfl⟩

/-- Witness for C1: with A's placeholder bound in the cache, the
re-entrant call returns it immediately even with zero fuel and leaves the
state untouched. -/
theorem c1_recursive_resolution_short_circuits_witness :
    cachedTypeInfo1 envA 0 stA (.tstruct "A") Tags.noneSet = (stA, .ok 0) :=
  c1_recursive_resolution_short_circuits.1 envA 0 stA (.tstruct "A") Tags.noneSet 0 rfl

/-- C2: once `cachedTypeInfo` has resolved a key successfully, resolving
it again returns the same pointer with the state — including the builder
invocation log — unchanged: the build happens at most once per key. -/
theorem c2_idempotent_caching (env : Env) (fuel fuel' : Nat) (st st₁ : State)
    (typ : RType) (tg : Tags) (p : Ptr)
    (h : cachedTypeInfo env fuel st typ tg = (st₁, .ok p)) :
    cachedTypeInfo env fuel' st₁ typ tg = (st₁, .ok p) :=
  cachedTypeInfo_hit env fuel' st₁ typ tg p (cachedTypeInfo_ok_binds env fuel st typ tg st₁ p h)

/-- Witness for C2: after resolving the uint kind once, resolving it again
returns the cached pointer with the state unchanged. -/
theorem c2_idempotent_caching_witness :
    cachedTypeInfo [] 5 stU .tuint Tags.noneSet = (stU, .ok 0) :=
  c2_idempotent_caching [] 1 5 initState stU .tuint Tags.noneSet 0 rfl

/-- C3: when a resolve fails, the key's placeholder has been removed from
the cache (the error is the returned value), and any later resolve of the
same key reaches the builder again — the key is not permanently
unresolvable. -/
theorem c3_failed_build_evicts_key (env : Env) (fuel : Nat) (st st₁ : State)
    (typ : RType) (tg : Tags) (e : Err)
    (h : cachedTypeInfo1 env fuel st typ tg = (st₁, .error e)) :
    lookupCache st₁.cache ⟨typ, tg⟩ = none ∧
    ∀ f, st₁.builds.count ⟨typ, tg⟩ <
        ((cachedTypeInfo1 env (f + 1) st₁ typ tg).1).builds.count ⟨typ, tg⟩ := by
  have h1 := cachedTypeInfo1_error_evicts env fuel st typ tg st₁ e h
  exact ⟨h1, fun f => cachedTypeInfo1_miss_builds env f st₁ typ tg h1⟩

/-- Witness for C3: after the failed resolve of struct B its key is
unmapped, and resolving B again from the failed state re-invokes the
builder for B. -/
theorem c3_failed_build_evicts_key_witness :
    lookupCache stB.cache keyB = none ∧
    stB.builds.count keyB <
      ((cachedTypeInfo1 envB 2 stB (.tstruct "B") Tags.noneSet).1).builds.count keyB :=
  ⟨(c3_failed_build_evicts_key envB 2 initState stB (.tstruct "B") Tags.noneSet
      (.unsupportedType .tunsupported) rfl).1,
   (c3_failed_build_evicts_key envB 2 initState stB (.tstruct "B") Tags.noneSet
      (.unsupportedType .tunsupported) rfl).2 1⟩

/-- C6: when field enumeration succeeds, the descriptors' indices are
exactly the kept field indices — the exported fields whose parsed tags do
not set `ignored`; non-exported fields and ignored fields contribute
nothing (`fieldKept` consults a field's tag only when the field is
exported, mirroring the guard in the source). -/
theorem c6_field_filtering (recur : Resolver) (ty : String)
    (fields : List StructField) (st st' : State) (fs : List FieldInfo)
    (h : structFields recur ty fields st = (st', .ok fs)) :
    fs.map FieldInfo.index = (List.range fields.length).filter (fieldKept ty fields) := by
  rw [structFields] at h
  exact structFieldsAux_ok_indices recur ty fields (List.range fields.length) st st' fs h

/-- fieldsW is the spec's field-filtering example: a visible field, a
non-exported field, and a visible field tagged `-`. -/
def fieldsW : List StructField :=
  [⟨"Visible", "", "", .tuint⟩, ⟨"hiddenField", "main", "", .tuint⟩,
    ⟨"IgnoredTagged", "", "-", .tuint⟩]

/-- Witness for C6: enumerating the spec's example struct yields exactly
one descriptor, for `Visible` at index 0. -/
theorem c6_field_filtering_witness :
    List.map FieldInfo.index [(⟨0, 0⟩ : FieldInfo)] =
      (List.range fieldsW.length).filter (fieldKept "W" fieldsW) :=
  c6_field_filtering (cachedTypeInfo1 [] 1) "W" fieldsW initState stU [⟨0, 0⟩] rfl

/-- C7: a key, once mapped, is never rebound to a different pointer by any
resolve (first conjunct, over arbitrary resolves and keys); and a resolve
that misses and succeeds returns exactly the placeholder pointer it
allocated on entry (the old heap length), leaves the key bound to that
same pointer, and has overwritten that same cell's contents in place with
the built strategies. -/
theorem c7_placeholder_pointer_identity :
    (∀ (env : Env) (fuel : Nat) (st : State) (typ : RType) (tg : Tags)
        (k : Typekey) (q : Ptr),
        lookupCache st.cache k = some q →
        lookupCache ((cachedTypeInfo1 env fuel st typ tg).1).cache k = some q) ∧
    (∀ (env : Env) (fuel : Nat) (st st₁ : State) (typ : RType) (tg : Tags) (p : Ptr),
        lookupCache st.cache ⟨typ, tg⟩ = none →
        cachedTypeInfo1 env fuel st typ tg = (st₁, .ok p) →
        p = st.heap.length ∧ lookupCache st₁.cache ⟨typ, tg⟩ = some p ∧
          st₁.heap[p]? = some ⟨some ⟨typ, tg⟩, some ⟨typ, tg⟩⟩) :=
  ⟨fun env fuel st typ tg k q h => (cachedTypeInfo1_stepOK env fuel st typ tg).1 k q h,
   fun env fuel st st₁ typ tg p hl h => cachedTypeInfo1_miss_ok env fuel st typ tg st₁ p hl h⟩

/-- Witness for C7: the uint binding survives a failing resolve of B
unchanged, and the fresh resolve of A returns the placeholder address 0
(the heap length before the call), still bound and fully built. -/
theorem c7_placeholder_pointer_identity_witness :
    lookupCache ((cachedTypeInfo1 envB 2 stB (.tstruct "B") Tags.noneSet).1).cache keyU =
      some 1 ∧
    (0 = initState.heap.length ∧ lookupCache stA.cache keyA = some 0 ∧
      stA.heap[0]? = some ⟨some keyA, some keyA⟩) :=
  ⟨c7_placeholder_pointer_identity.1 envB 2 stB (.tstruct "B") Tags.noneSet keyU 1 rfl,
   c7_placeholder_pointer_identity.2 envA 1 initState stA (.tstruct "A") Tags.noneSet 0
     rfl rfl⟩

/-- C10: a failing resolve removes only entries it had itself inserted for
the failing chain — every key bound before the call is still bound to the
same pointer afterwards and the failing key itself is unmapped (first
conjunct); concretely, after B's failed build the entry built for its
first field's type (uint) remains in the cache and is reused by a later
resolve without rebuilding (the returned state is unchanged, so the build
log does not grow). -/
theorem c10_nested_entries_survive_failure :
    (∀ (env : Env) (fuel : Nat) (st st₁ : State) (typ : RType) (tg : Tags) (e : Err),
        cachedTypeInfo1 env fuel st typ tg = (st₁, .error e) →
        lookupCache st₁.cache ⟨typ, tg⟩ = none ∧
        ∀ k q, lookupCache st.cache k = some q → lookupCache st₁.cache k = some q) ∧
    (cachedTypeInfo1 envB 2 initState (.tstruct "B") Tags.noneSet =
        (stB, .error (.unsupportedType .tunsupported)) ∧
      lookupCache stB.cache keyU = some 1 ∧
      cachedTypeInfo envB 0 stB .tuint Tags.noneSet = (stB, .ok 1)) :=
  ⟨fun env fuel st st₁ typ tg e h =>
    ⟨cachedTypeInfo1_error_evicts env fuel st typ tg st₁ e h,
     fun k q hk => by
      have := (cachedTypeInfo1_stepOK env fuel st typ tg).1 k q hk
      rw [h] at this
      exact this⟩,
   rfl, rfl, rfl⟩

/-- Witness for C10: instantiating the frame conjunct on the failing
resolve of B shows B's key unmapped afterwards. -/
theorem c10_nested_entries_survive_failure_witness :
    lookupCache stB.cache keyB = none :=
  (c10_nested_entries_survive_failure.1 envB 2 initState stB (.tstruct "B") Tags.noneSet
    (.unsupportedType .tunsupported) rfl).1

/-- C8: when field enumeration succeeds, the indices recorded in the
returned descriptors are strictly increasing, preserving declaration
order. -/
theorem c8_declaration_order (recur : Resolver) (ty : String)
    (fields : List StructField) (st st' : State) (fs : List FieldInfo)
    (h : structFields recur ty fields st = (st', .ok fs)) :
    (fs.map FieldInfo.index).Pairwise (· < ·) := by
  rw [structFields] at h
  rw [structFieldsAux_ok_indices recur ty fields (List.range fields.length) st st' fs h]
  exact (List.pairwise_lt_range fields.length).filter _

/-- fieldsO is a two-field struct with both fields visible and kept. -/
def fieldsO : List StructField :=
  [⟨"A", "", "", .tuint⟩, ⟨"B", "", "", .tuint⟩]

/-- Witness for C8: enumerating the two-field struct returns descriptors
whose indices 0, 1 are strictly increasing. -/
theorem c8_declaration_order_witness :
    (List.map FieldInfo.index [(⟨0, 0⟩ : FieldInfo), ⟨1, 0⟩]).Pairwise (· < ·) :=
  c8_declaration_order (cachedTypeInfo1 [] 1) "O" fieldsO initState stU
    [⟨0, 0⟩, ⟨1, 0⟩] rfl

instance (t : String) : Decidable (GoodTok t) := by
  unfold GoodTok
  infer_instance

/-- exFieldsC4 refutes C4 as stated: field 0 (`F`, a slice, tagged
`tail`) is lexically last among the *visible* fields, because the only
field after it is non-exported — yet the source checks the index against
`NumField()-1`, counting non-exported fields too. -/
def exFieldsC4 : List StructField :=
  [⟨"F", "", "tail", .tslice .tuint⟩, ⟨"g", "main", "", .tuint⟩]

/-- Counterexample to C4 as stated: in `exFieldsC4` every field after
field 0 is non-exported (so field 0 is lexically last among the visible
fields), field 0 is exported, its type is a sequence and it carries the
`tail` token — yet parse returns a ModifierPlacementError, contradicting
the claim that no placement error occurs in this situation. -/
theorem c4_counterexample_last_visible_not_last :
    ((exFieldsC4.drop 1).all fun fld => fld.pkgPath != "") = true ∧
    exFieldsC4[0]? = some ⟨"F", "", "tail", .tslice .tuint⟩ ∧
    RType.isSlice (.tslice .tuint) = true ∧
    parseStructTag "S" exFieldsC4 0 = .error (.placementNotLast "S" "F") ∧
    Err.isPlacement (.placementNotLast "S" "F") = true :=
  ⟨rfl, rfl, rfl, rfl, rfl⟩

/-- C4 (amended): for a field declaration of accepted tokens carrying the
`tail` token, parse returns a ModifierPlacementError unless the field is
lexically last among ALL of the owning type's declared fields (exported
or not — the source checks `fi != NumField()-1`) and the field's type is
a sequence; when the field is last among all fields and is a sequence,
parse accepts and records `tail`. -/
theorem c4_tail_placement_amended (ty : String) (fields : List StructField) (fi : Nat)
    (f : StructField) (hf : fields[fi]? = some f)
    (hg : ∀ t ∈ splitComma f.tag, GoodTok t)
    (hm : "tail" ∈ (splitComma f.tag).map trimSpace) :
    (fi = fields.length - 1 → f.ftype.isSlice = true →
        ∃ ts, parseStructTag ty fields fi = .ok ts ∧ ts.tail = true) ∧
    (¬(fi = fields.length - 1 ∧ f.ftype.isSlice = true) →
        ∃ e, parseStructTag ty fields fi = .error e ∧ e.isPlacement = true) := by
  constructor
  · intro hlast hslice
    rw [parseStructTag_some ty fields fi f hf]
    obtain ⟨ts', hok, htail⟩ := parseTagTokens_good_ok ty fields.length fi f hlast hslice
      (splitComma f.tag) Tags.noneSet hg
    exact ⟨ts', hok, htail (Or.inr hm)⟩
  · intro hnot
    rw [parseStructTag_some ty fields fi f hf]
    exact parseTagTokens_tail_err ty fields.length fi f hnot (splitComma f.tag)
      Tags.noneSet hg hm

/-- tailOkFields has `tail` on the last declared field, of slice type. -/
def tailOkFields : List StructField := [⟨"F", "", "tail", .tslice .tuint⟩]

/-- tailBadFields has `tail` on the last declared field, of non-slice
type. -/
def tailBadFields : List StructField := [⟨"F", "", "tail", .tuint⟩]

/-- Witness for the amended C4: `tail` on a last slice field parses with
`tail` set; `tail` on a last non-slice field is a placement error. -/
theorem c4_tail_placement_amended_witness :
    (∃ ts, parseStructTag "S" tailOkFields 0 = .ok ts ∧ ts.tail = true) ∧
    (∃ e, parseStructTag "S" tailBadFields 0 = .error e ∧ e.isPlacement = true) :=
  ⟨(c4_tail_placement_amended "S" tailOkFields 0 ⟨"F", "", "tail", .tslice .tuint⟩ rfl
      (by decide) (by decide)).1 rfl rfl,
   (c4_tail_placement_amended "S" tailBadFields 0 ⟨"F", "", "tail", .tuint⟩ rfl
      (by decide) (by decide)).2 (by decide)⟩

/-- C5: the modifier grammar.  The tag is split on commas and each token
trimmed; the empty token is a no-op, `-` sets ignored, `nil` sets
nilable; any single unknown token yields a hard error carrying the
trimmed token, the owning type's name and the field's name, and the
rendered message contains all three; the listed spec examples evaluate
accordingly. -/
theorem c5_modifier_grammar :
    (∀ (ty : String) (fields : List StructField) (fi : Nat) (f : StructField),
        fields[fi]? = some f → f.tag = "nil" →
        parseStructTag ty fields fi = .ok ⟨true, false, false⟩) ∧
    (∀ (ty : String) (fields : List StructField) (fi : Nat) (f : StructField),
        fields[fi]? = some f → f.tag = "-" →
        parseStructTag ty fields fi = .ok ⟨false, false, true⟩) ∧
    (∀ (ty : String) (fields : List StructField) (fi : Nat) (f : StructField),
        fields[fi]? = some f → f.tag = "" →
        parseStructTag ty fields fi = .ok ⟨false, false, false⟩) ∧
    (∀ (ty : String) (fields : List StructField) (fi : Nat) (f : StructField),
        fields[fi]? = some f → f.tag = " nil , - " →
        parseStructTag ty fields fi = .ok ⟨true, false, true⟩) ∧
    (∀ (ty : String) (fields : List StructField) (fi : Nat) (f : StructField),
        fields[fi]? = some f → f.tag = "bogus" →
        parseStructTag ty fields fi = .error (.unknownTag "bogus" ty f.name)) ∧
    (∀ (ty : String) (fields : List StructField) (fi : Nat) (f : StructField) (t : String),
        fields[fi]? = some f → f.tag = t → ',' ∉ t.data →
        trimSpace t ≠ "" → trimSpace t ≠ "-" → trimSpace t ≠ "nil" → trimSpace t ≠ "tail" →
        parseStructTag ty fields fi = .error (.unknownTag (trimSpace t) ty f.name)) ∧
    (∀ (tok ty fn : String), ∃ a b c,
        (Err.unknownTag tok ty fn).message = a ++ tok ++ b ++ ty ++ c ++ fn) := by
  refine ⟨?_, ?_, ?_, ?_, ?_, ?_, ?_⟩
  · intro ty fields fi f hf htag
    rw [parseStructTag_some ty fields fi f hf, htag]
    rfl
  · intro ty fields fi f hf htag
    rw [parseStructTag_some ty fields fi f hf, htag]
    rfl
  · intro ty fields fi f hf htag
    rw [parseStructTag_some ty fields fi f hf, htag]
    rfl
  · intro ty fields fi f hf htag
    rw [parseStructTag_some ty fields fi f hf, htag]
    rfl
  · intro ty fields fi f hf htag
    rw [parseStructTag_some ty fields fi f hf, htag]
    rfl
  · intro ty fields fi f t hf htag hnc h1 h2 h3 h4
    rw [parseStructTag_some ty fields fi f hf, htag, splitComma_no_comma t hnc]
    simp only [parseTagTokens]
    rw [if_neg h1, if_neg h2, if_neg h3, if_neg h4]
  · intro tok ty fn
    exact ⟨"rlp: unknown struct tag \"", "\" on ", ".", rfl⟩

/-- Witness for C5: the spec's three examples, instantiated on a concrete
field. -/
theorem c5_modifier_grammar_witness :
    parseStructTag "S" [⟨"F", "", "nil", .tuint⟩] 0 = .ok ⟨true, false, false⟩ ∧
    parseStructTag "S" [⟨"F", "", "-", .tuint⟩] 0 = .ok ⟨false, false, true⟩ ∧
    parseStructTag "S" [⟨"F", "", "bogus", .tuint⟩] 0 =
      .error (.unknownTag "bogus" "S" "F") :=
  ⟨c5_modifier_grammar.1 "S" [⟨"F", "", "nil", .tuint⟩] 0 ⟨"F", "", "nil", .tuint⟩ rfl rfl,
   c5_modifier_grammar.2.1 "S" [⟨"F", "", "-", .tuint⟩] 0 ⟨"F", "", "-", .tuint⟩ rfl rfl,
   c5_modifier_grammar.2.2.2.2.1 "S" [⟨"F", "", "bogus", .tuint⟩] 0
     ⟨"F", "", "bogus", .tuint⟩ rfl rfl⟩

end Rlp
